import Mathlib

/-!
Verification development for the `embed_cover` repository.

The repository has two variants of the same per-file cover-embedding
pipeline:

* `src/embed_cover.py` (CLI): `has_embedded_cover`, `get_video_duration`,
  `process_video`, `check_ffmpeg`, `main`;
* `src/gui.py` (GUI): `Worker.has_embedded_cover`,
  `Worker.get_video_duration`, `Worker.process_single_video`, and the
  `MainApp` batch controls (`start_processing` / `stop_processing`).

The embedding below models the container as a list of stream records (the
ffprobe JSON fields the code inspects), the filesystem as a map from paths
to contents, and every external-tool invocation (ffprobe, ffmpeg extract,
ffmpeg mux) plus the final move as an oracle value recorded in `ToolEnv`:
the code only observes these calls through success or failure and through
the bytes they produce, which is exactly what the oracle supplies.
Each pipeline run also returns the list of filesystem events it performed,
so that write-ordering claims can be stated.

Modelling conventions, stated once:
* `shutil.move` is modelled as atomic: either the destination receives the
  complete source content and the source disappears, or the call fails and
  the filesystem is unchanged (the cross-device copy fallback of the
  library is below this model).
* `os.remove` on an existing file is modelled as succeeding.
* Durations and timestamps are modelled as rationals; the code performs
  the single arithmetic operation `duration * value / 100`.
-/

/-- One entry of the ffprobe `streams` array, restricted to the two fields
the code reads: `codec_type` and `disposition.attached_pic`. -/
structure StreamInfo where
  codecType : String
  attachedPic : Bool
deriving DecidableEq, Repr

/-- Contents of a file in the model: a media container with its streams,
or a raw byte file of a given size (temporary images, empty temp files). -/
inductive Content where
  | video : List StreamInfo → Content
  | image : Nat → Content
deriving DecidableEq, Repr

/-- The filesystem: a map from path to contents (`none` = no file). -/
def FS : Type := String → Option Content

/-- Pointwise filesystem update. -/
def FS.upd (fs : FS) (p : String) (c : Option Content) : FS :=
  fun q => if q = p then c else fs q

/-- Filesystem events performed by a pipeline invocation. -/
inductive Ev where
  | write : String → Content → Ev
  | move : String → String → Ev
  | remove : String → Ev
  | extractFrame : Rat → String → Ev
deriving DecidableEq, Repr

/-- Terminal outcome of one pipeline invocation.  The CLI prints skip /
success / failure lines and the GUI returns status strings; both are
mapped onto this tagged type with fixed reason tags. -/
inductive Outcome where
  | success : Outcome
  | skipped : String → Outcome
  | failed : String → Outcome
deriving DecidableEq, Repr

def Outcome.isFailed : Outcome → Bool
  | .failed _ => true
  | _ => false

def Outcome.isSkipped : Outcome → Bool
  | .skipped _ => true
  | _ => false

/-- Result of one pipeline invocation: outcome, final filesystem, and the
list of filesystem events in execution order. -/
structure RunResult where
  outcome : Outcome
  fs : FS
  trace : List Ev

/-- Oracle for the external-tool invocations of one pipeline run.
`coverProbeOk`: the ffprobe streams query succeeds and parses.
`durationProbed`: `none` models a failing or unparsable ffprobe format
query (the code turns it into duration 0); `some d` is the parsed value.
`extractResult`: `none` models the extract ffmpeg call exiting non-zero;
`some n` models it writing an image file of `n` bytes.
`muxOk` / `moveOk`: the mux ffmpeg call and the final move succeed. -/
structure ToolEnv where
  coverProbeOk : Bool
  durationProbed : Option Rat
  extractResult : Option Nat
  muxOk : Bool
  moveOk : Bool

/-- Streams of a file content (ffprobe reports none for a non-container). -/
def streamsOf : Option Content → List StreamInfo
  | some (.video ss) => ss
  | _ => []

/-- `get_video_duration` (both variants, embed_cover.py lines 46-57 and
gui.py lines 144-153): on any ffprobe failure, or a missing duration
field, the function returns 0; otherwise the parsed duration. -/
def get_video_duration (probed : Option Rat) : Rat :=
  probed.getD 0

/-- The appended cover image enters the mux as one more video-typed stream
(the png/mjpeg encoded picture), with no disposition of its own yet. -/
def coverInputStream : StreamInfo :=
  { codecType := "video", attachedPic := false }

/-- Auxiliary walk for `-disposition:v:1 attached_pic`: flag the output
stream whose video index is 1, that is the second video-typed stream. -/
def setDispAux : Nat → List StreamInfo → List StreamInfo
  | _, [] => []
  | k, s :: rest =>
    if s.codecType = "video" then
      (if k = 1 then { s with attachedPic := true } else s) :: setDispAux (k + 1) rest
    else
      s :: setDispAux k rest

/-- Effect of the `-disposition:v:1 attached_pic` output option used by
both mux command lines. -/
def setDispositionV1 (ss : List StreamInfo) : List StreamInfo :=
  setDispAux 0 ss

/-- Number of video-typed streams in a list. -/
def countVideo (ss : List StreamInfo) : Nat :=
  (ss.filter (fun s => s.codecType = "video")).length

/-- The `finally` cleanup shared in shape by both variants
(embed_cover.py lines 126-132, gui.py lines 123-129): remove the temp
cover and the temp output if they still exist.  Removal of an existing
file is modelled as succeeding; the operation is idempotent. -/
def cleanup_temps (tempCover tempOut : String) (r : RunResult) : RunResult :=
  let fs1 := if (r.fs tempCover).isSome then r.fs.upd tempCover none else r.fs
  let tr1 : List Ev := if (r.fs tempCover).isSome then [Ev.remove tempCover] else []
  let fs2 := if (fs1 tempOut).isSome then fs1.upd tempOut none else fs1
  let tr2 : List Ev := if (fs1 tempOut).isSome then [Ev.remove tempOut] else []
  { outcome := r.outcome, fs := fs2, trace := r.trace ++ tr1 ++ tr2 }

/-- Split a character list at its last dot: `some (before, fromDot)`. -/
def splitLastDot : List Char → Option (List Char × List Char)
  | [] => none
  | c :: cs =>
    match splitLastDot cs with
    | some (a, b) => some (c :: a, b)
    | none => if c = '.' then some ([], '.' :: cs) else none

/-- `os.path.splitext`, at the fidelity the code relies on: the path is
split into a stem and an extension whose concatenation is the path
(dots inside directory names are not special-cased). -/
def splitext (s : String) : String × String :=
  match splitLastDot s.data with
  | some (a, b) => (⟨a⟩, ⟨b⟩)
  | none => (s, "")

namespace EmbedCover

/-- `THUMBNAIL_TIME_SECONDS` (embed_cover.py line 10). -/
def THUMBNAIL_TIME_SECONDS : Rat := 20

/-- `has_embedded_cover` (embed_cover.py lines 23-44): on a successful
probe, true iff any stream has `disposition.attached_pic == 1`; on any
ffprobe error the function returns False (the except branch). -/
def has_embedded_cover (probeOk : Bool) (f : Option Content) : Bool :=
  probeOk && (streamsOf f).any (fun s => s.attachedPic)

/-- The temporary mux output path (line 100):
the stem, then `.temp_video`, then the original extension. -/
def temp_output_path (videoPath : String) : String :=
  (splitext videoPath).1 ++ ".temp_video" ++ (splitext videoPath).2

/-- Output streams of the CLI mux command (lines 102-107):
`-map 0:v:0` takes the first video stream only, `-map 0:a?` takes the
audio streams, `-map 1` appends the extracted image, and
`-disposition:v:1 attached_pic` flags video output stream 1. -/
def embed_streams (orig : List StreamInfo) : List StreamInfo :=
  setDispositionV1
    ((orig.filter (fun s => s.codecType = "video")).take 1
      ++ orig.filter (fun s => s.codecType = "audio")
      ++ [coverInputStream])

/-- `process_video` (embed_cover.py lines 59-132).  Control flow of the
source, in order: cover check (skip), duration check (skip below the 20s
threshold, which swallows duration 0), then inside try/except/finally:
create the temp cover file, extract, size check, mux to the temp output
path, move the temp output over the original, and always clean up. -/
def process_video (env : ToolEnv) (videoPath tempCover : String) (fs : FS) : RunResult :=
  if has_embedded_cover env.coverProbeOk (fs videoPath) then
    { outcome := .skipped "already has cover", fs := fs, trace := [] }
  else
    let duration := get_video_duration env.durationProbed
    if duration < THUMBNAIL_TIME_SECONDS then
      { outcome := .skipped "shorter than thumbnail time", fs := fs, trace := [] }
    else
      let tempOut := temp_output_path videoPath
      let fs1 := fs.upd tempCover (some (.image 0))
      let tr1 : List Ev := [.write tempCover (.image 0)]
      match env.extractResult with
      | none =>
        cleanup_temps tempCover tempOut
          { outcome := .failed "extract tool error", fs := fs1,
            trace := tr1 ++ [.extractFrame THUMBNAIL_TIME_SECONDS tempCover] }
      | some n =>
        let fs2 := fs1.upd tempCover (some (.image n))
        let tr2 := tr1 ++ [.extractFrame THUMBNAIL_TIME_SECONDS tempCover,
                           .write tempCover (.image n)]
        if n = 0 then
          cleanup_temps tempCover tempOut
            { outcome := .failed "extracted cover empty", fs := fs2, trace := tr2 }
        else if env.muxOk then
          let muxed : Content := .video (embed_streams (streamsOf (fs2 videoPath)))
          let fs3 := fs2.upd tempOut (some muxed)
          let tr3 := tr2 ++ [.write tempOut muxed]
          if env.moveOk then
            let fs4 := (fs3.upd videoPath (fs3 tempOut)).upd tempOut none
            cleanup_temps tempCover tempOut
              { outcome := .success, fs := fs4,
                trace := tr3 ++ [.move tempOut videoPath] }
          else
            cleanup_temps tempCover tempOut
              { outcome := .failed "move error", fs := fs3, trace := tr3 }
        else
          cleanup_temps tempCover tempOut
            { outcome := .failed "mux tool error", fs := fs2, trace := tr2 }

/-- Module-level imports of embed_cover.py (lines 1-5). -/
def moduleImports : List String :=
  ["os", "subprocess", "tempfile", "shutil", "json"]

/-- Result of running `check_ffmpeg` (lines 12-20). -/
inductive CheckResult where
  | ok : CheckResult
  | exited : Nat → CheckResult
  | nameError : CheckResult
deriving DecidableEq, Repr

/-- `check_ffmpeg` (lines 12-20): when `ffmpeg -version` raises
FileNotFoundError or CalledProcessError, the handler prints and then
evaluates `sys.exit(1)`; the name `sys` resolves only if it is among the
module imports, otherwise evaluating it raises NameError. -/
def check_ffmpeg (ffmpegAvailable : Bool) : CheckResult :=
  if ffmpegAvailable then .ok
  else if moduleImports.contains "sys" then .exited 1
  else .nameError

/-- The sequential batch loop of `main` (lines 157-165): process each
discovered file in order, threading the filesystem, and record one
(path, outcome) log entry per file. -/
def run_batch (tasks : List (ToolEnv × String × String)) (fs : FS) :
    List (String × Outcome) × FS :=
  match tasks with
  | [] => ([], fs)
  | (env, vp, tc) :: rest =>
    let r := process_video env vp tc fs
    let rr := run_batch rest r.fs
    ((vp, r.outcome) :: rr.1, rr.2)

/-- Process exit status of the CLI after the batch loop: `main`
(lines 134-169) keeps no per-outcome counters, prints only the fixed
closing line, returns `None` on every path, and nothing after it calls
`sys.exit`; the interpreter therefore exits with status 0 regardless of
the collected outcomes. -/
def main_exit_status (_results : List (String × Outcome)) : Nat :=
  0

end EmbedCover

namespace Gui

/-- Timestamp selection mode of the worker (`mode` and `value` in
Worker.run, gui.py lines 61-62). -/
inductive Mode where
  | percent : Rat → Mode
  | time : Rat → Mode
deriving DecidableEq, Repr

/-- The timestamp computation (gui.py line 85):
`second = (duration * value / 100) if mode == percent else value`. -/
def compute_second (mode : Mode) (duration : Rat) : Rat :=
  match mode with
  | .percent v => duration * v / 100
  | .time v => v

/-- The guard `mode == time and duration < value` (gui.py line 82). -/
def tooShort (mode : Mode) (duration : Rat) : Bool :=
  match mode with
  | .time v => duration < v
  | .percent _ => false

/-- Range constraints the settings UI enforces on the mode value
(`percent_spin` range 0.1-99.9, `time_spin` range 1-7200,
gui.py lines 339-342). -/
def modeValueOk (mode : Mode) : Prop :=
  match mode with
  | .percent v => 0 ≤ v ∧ v ≤ 100
  | .time v => 0 ≤ v

/-- `Worker.has_embedded_cover` (gui.py lines 131-142): on a successful
probe, true iff some video-typed stream has `attached_pic == 1`; on any
probe exception the function returns False. -/
def has_embedded_cover (probeOk : Bool) (f : Option Content) : Bool :=
  probeOk && (streamsOf f).any (fun s => s.codecType = "video" && s.attachedPic)

/-- Output streams of the GUI mux command (gui.py lines 104-108):
`-map 0 -map 1 -c copy` copies every original stream and appends the
extracted image; `-disposition:v:1 attached_pic` flags video output
stream 1. -/
def embed_streams (orig : List StreamInfo) : List StreamInfo :=
  setDispositionV1 (orig ++ [coverInputStream])

/-- `os.path.basename`, the last path component. -/
def basename (p : String) : String :=
  (p.splitOn "/").getLastD p

/-- Final destination (gui.py lines 111-115): `out_dir/basename` when
saving to a new directory, otherwise the original path. -/
def final_path (outDir : Option String) (videoPath : String) : String :=
  match outDir with
  | some d => d ++ "/" ++ basename videoPath
  | none => videoPath

/-- `Worker.process_single_video` (gui.py lines 72-129).  Control flow of
the source, in order: cover check unless overwriting (skip), duration 0
check (fail), too-short check in time mode (skip), timestamp, then inside
try/except/finally: create both temp files, extract, size check, mux,
move to the final destination, and always clean up. -/
def process_single_video (env : ToolEnv) (overwriteExisting : Bool) (mode : Mode)
    (outDir : Option String) (videoPath tempCover tempOut : String) (fs : FS) :
    RunResult :=
  if !overwriteExisting && has_embedded_cover env.coverProbeOk (fs videoPath) then
    { outcome := .skipped "already has cover", fs := fs, trace := [] }
  else
    let duration := get_video_duration env.durationProbed
    if duration = 0 then
      { outcome := .failed "duration unavailable", fs := fs, trace := [] }
    else if tooShort mode duration then
      { outcome := .skipped "too short for requested timestamp", fs := fs, trace := [] }
    else
      let second := compute_second mode duration
      let fs1 := (fs.upd tempCover (some (.image 0))).upd tempOut (some (.image 0))
      let tr1 : List Ev := [.write tempCover (.image 0), .write tempOut (.image 0)]
      match env.extractResult with
      | none =>
        cleanup_temps tempCover tempOut
          { outcome := .failed "extract tool error", fs := fs1,
            trace := tr1 ++ [.extractFrame second tempCover] }
      | some n =>
        let fs2 := fs1.upd tempCover (some (.image n))
        let tr2 := tr1 ++ [.extractFrame second tempCover, .write tempCover (.image n)]
        if n = 0 then
          cleanup_temps tempCover tempOut
            { outcome := .failed "extracted cover empty", fs := fs2, trace := tr2 }
        else if env.muxOk then
          let muxed : Content := .video (embed_streams (streamsOf (fs2 videoPath)))
          let fs3 := fs2.upd tempOut (some muxed)
          let tr3 := tr2 ++ [.write tempOut muxed]
          let dest := final_path outDir videoPath
          if env.moveOk then
            let fs4 := (fs3.upd dest (fs3 tempOut)).upd tempOut none
            cleanup_temps tempCover tempOut
              { outcome := .success, fs := fs4,
                trace := tr3 ++ [.move tempOut dest] }
          else
            cleanup_temps tempCover tempOut
              { outcome := .failed "move error", fs := fs3, trace := tr3 }
        else
          cleanup_temps tempCover tempOut
            { outcome := .failed "mux tool error", fs := fs2, trace := tr2 }

end Gui

/-- True when the event writes, overwrites, moves over, or removes the
given path, that is when it can change the bytes at that path. -/
def touchesPath (e : Ev) (p : String) : Bool :=
  match e with
  | .write q _ => q = p
  | .move src dst => src = p || dst = p
  | .remove q => q = p
  | .extractFrame _ q => q = p

/-- The in-place commit discipline of one run, relative to the filesystem
`fsBefore` it started from: every event touching the original path is the
single commit move from the temp output; on any non-success outcome the
bytes at the original path are unchanged; and on success the trace
contains the complete write of the muxed container to the temp output
strictly before the commit move. -/
def inplaceCommitProp (tempOut videoPath : String) (muxed : Content)
    (fsBefore : FS) (r : RunResult) : Prop :=
  (r.trace.all fun e => !touchesPath e videoPath
      || decide (e = Ev.move tempOut videoPath)) = true
  ∧ (r.outcome ≠ Outcome.success → r.fs videoPath = fsBefore videoPath)
  ∧ (r.outcome = Outcome.success →
      List.Sublist [Ev.write tempOut muxed, Ev.move tempOut videoPath] r.trace)

/-- Scheduler state of one batch run: the queued-not-yet-started tasks,
the tasks currently running in the pool, the completed (task, outcome)
log, the cancellation flag, and whether the run was reported stopped. -/
structure SchedState where
  pending : List String
  inflight : List String
  finishedTasks : List (String × Outcome)
  cancelled : Bool
  stoppedReported : Bool
deriving DecidableEq, Repr

/-- Observable scheduler events. -/
inductive SchedEv where
  | dispatchEv : String → SchedEv
  | finishEv : String → Outcome → SchedEv
  | cancelEv : SchedEv
  | stopReportEv : SchedEv
deriving DecidableEq, Repr

/-- One scheduler transition, modelling the QThreadPool protocol the GUI
uses (gui.py lines 531-542): `dispatchEv` starts the head of the queue;
`finishEv` lets a running worker reach its natural terminal outcome (the
only way a task leaves the pool: nothing force-kills a worker);
`cancelEv` is `stop_processing` up to `threadpool.clear()`, which drops
every queued-not-yet-started task; `stopReportEv` is the return of
`threadpool.waitForDone()` followed by `on_all_workers_finished`, which
requires the pool to have drained. -/
def schedStep (s : SchedState) : SchedEv → Option SchedState
  | .dispatchEv t =>
    match s.pending with
    | [] => none
    | q :: rest =>
      if t = q then
        some { s with pending := rest, inflight := s.inflight ++ [t] }
      else none
  | .finishEv t o =>
    if t ∈ s.inflight then
      some { s with inflight := s.inflight.erase t,
                    finishedTasks := s.finishedTasks ++ [(t, o)] }
    else none
  | .cancelEv => some { s with cancelled := true, pending := [] }
  | .stopReportEv =>
    if s.cancelled = true ∧ s.inflight = [] then
      some { s with stoppedReported := true }
    else none

/-- Run a list of scheduler events from a state. -/
def schedRun (s : SchedState) : List SchedEv → Option SchedState
  | [] => some s
  | e :: es =>
    match schedStep s e with
    | some s2 => schedRun s2 es
    | none => none

/-- A single file holding one stream list, used as a concrete fixture. -/
def fsOf (p : String) (c : Content) : FS :=
  fun q => if q = p then some c else none

/-- A plain video container: one video stream, one audio stream, no cover. -/
def fileNoCover : Content :=
  .video [{ codecType := "video", attachedPic := false },
          { codecType := "audio", attachedPic := false }]

/-- A container already carrying an attached picture. -/
def fileWithCover : Content :=
  .video [{ codecType := "video", attachedPic := false },
          { codecType := "video", attachedPic := true }]

/-- A container with a video stream and a subtitle stream. -/
def fileWithSub : Content :=
  .video [{ codecType := "video", attachedPic := false },
          { codecType := "subtitle", attachedPic := false }]

/-- Oracle in which every external invocation succeeds. -/
def envAllOk : ToolEnv :=
  { coverProbeOk := true, durationProbed := some 30,
    extractResult := some 5, muxOk := true, moveOk := true }

/-- Oracle in which the streams probe fails and everything else succeeds. -/
def envProbeFail : ToolEnv :=
  { envAllOk with coverProbeOk := false }

/-- Oracle in which the probed duration is 0 and everything else succeeds. -/
def envDurZero : ToolEnv :=
  { envAllOk with durationProbed := some 0 }

/-- Oracle in which the probed duration is exactly 20 seconds. -/
def envDur20 : ToolEnv :=
  { envAllOk with durationProbed := some 20 }

/-- Oracle in which the mux invocation fails. -/
def envMuxFail : ToolEnv :=
  { envAllOk with muxOk := false }

/-! ## Helper lemmas -/

theorem FS.upd_self (fs : FS) (p : String) (c : Option Content) : fs.upd p c p = c := by
  simp [FS.upd]

theorem FS.upd_other (fs : FS) {p q : String} (c : Option Content) (h : q ≠ p) :
    fs.upd p c q = fs q := by
  simp [FS.upd, h]

theorem splitLastDot_append :
    ∀ (cs a b : List Char), splitLastDot cs = some (a, b) → a ++ b = cs := by
  intro cs
  induction cs with
  | nil => intro a b h; simp [splitLastDot] at h
  | cons c rest ih =>
    intro a b h
    unfold splitLastDot at h
    cases h2 : splitLastDot rest with
    | some ab =>
      obtain ⟨a2, b2⟩ := ab
      rw [h2] at h
      simp only [Option.some.injEq, Prod.mk.injEq] at h
      obtain ⟨ha, hb⟩ := h
      subst ha; subst hb
      rw [List.cons_append, ih a2 b2 h2]
    | none =>
      rw [h2] at h
      by_cases hc : c = '.'
      · simp [hc] at h
        obtain ⟨ha, hb⟩ := h
        subst ha; subst hb
        simp [hc]
      · simp [hc] at h

theorem splitext_append (s : String) : (splitext s).1 ++ (splitext s).2 = s := by
  unfold splitext
  cases h : splitLastDot s.data with
  | none => simp
  | some ab =>
    obtain ⟨a, b⟩ := ab
    have hab := splitLastDot_append s.data a b h
    simp only
    apply String.ext
    simpa using hab

theorem temp_output_path_ne (p : String) : EmbedCover.temp_output_path p ≠ p := by
  intro h
  have h1 := congrArg String.length h
  have h2 := congrArg String.length (splitext_append p)
  rw [EmbedCover.temp_output_path] at h1
  simp only [String.length_append] at h1 h2
  have h3 : String.length ".temp_video" = 11 := by decide
  omega

theorem countVideo_nil : countVideo [] = 0 := by
  simp [countVideo]

theorem countVideo_cons (s : StreamInfo) (rest : List StreamInfo) :
    countVideo (s :: rest) =
      (if s.codecType = "video" then 1 else 0) + countVideo rest := by
  by_cases h : s.codecType = "video" <;>
    simp [countVideo, List.filter_cons, h] <;> omega

theorem countVideo_append (l1 l2 : List StreamInfo) :
    countVideo (l1 ++ l2) = countVideo l1 + countVideo l2 := by
  simp [countVideo, List.filter_append]

theorem setDispAux_flag (l : List StreamInfo) :
    ∀ k : Nat, k ≤ 1 → 2 ≤ k + countVideo l →
      (setDispAux k l).any (fun s => s.codecType = "video" && s.attachedPic) = true := by
  induction l with
  | nil => intro k hk h; rw [countVideo_nil] at h; omega
  | cons s rest ih =>
    intro k hk h
    rw [countVideo_cons] at h
    by_cases hv : s.codecType = "video"
    · by_cases hk1 : k = 1
      · simp [setDispAux, hv, hk1]
      · have hk0 : k = 0 := by omega
        subst hk0
        simp only [setDispAux, hv, if_true, if_pos]
        rw [List.any_cons]
        have := ih 1 (by omega) (by simp [hv] at h; omega)
        simp [this]
    · simp only [setDispAux, hv, if_neg, if_false]
      rw [List.any_cons]
      have := ih k hk (by simp [hv] at h; omega)
      simp [this]

theorem setDispAux_append_cover (l : List StreamInfo) :
    ∀ k : Nat, k + countVideo l = 1 →
      setDispAux k (l ++ [coverInputStream]) =
        l ++ [{ codecType := "video", attachedPic := true }] := by
  induction l with
  | nil =>
    intro k h
    rw [countVideo_nil] at h
    have hk : k = 1 := by omega
    subst hk
    simp [setDispAux, coverInputStream]
  | cons s rest ih =>
    intro k h
    rw [countVideo_cons] at h
    by_cases hv : s.codecType = "video"
    · have hk0 : k = 0 := by simp [hv] at h; omega
      subst hk0
      rw [List.cons_append]
      simp only [setDispAux, hv, if_pos]
      rw [ih 1 (by simp [hv] at h; omega)]
      simp
    · rw [List.cons_append]
      simp only [setDispAux, hv, if_neg, if_false]
      rw [ih k (by simp [hv] at h; omega)]
      simp

theorem any_pic_of_any_video_pic (l : List StreamInfo)
    (h : l.any (fun s => s.codecType = "video" && s.attachedPic) = true) :
    l.any (fun s => s.attachedPic) = true := by
  simp only [List.any_eq_true, Bool.and_eq_true] at h ⊢
  obtain ⟨s, hs, _, h2⟩ := h
  exact ⟨s, hs, h2⟩

theorem countVideo_filter_audio (l : List StreamInfo) :
    countVideo (l.filter (fun s => s.codecType = "audio")) = 0 := by
  induction l with
  | nil => simp [countVideo]
  | cons s rest ih =>
    by_cases ha : s.codecType = "audio"
    · rw [List.filter_cons]
      simp only [ha, decide_True, if_pos, cond_true]
      rw [countVideo_cons]
      simp [ha, ih]
    · rw [List.filter_cons]
      simp [ha, ih]

theorem countVideo_take_one (l : List StreamInfo) (h : 1 ≤ countVideo l) :
    countVideo ((l.filter (fun s => s.codecType = "video")).take 1) = 1 := by
  cases hf : l.filter (fun s => s.codecType = "video") with
  | nil => rw [countVideo, hf] at h; simp at h
  | cons v rest =>
    have hv : v.codecType = "video" := by
      have hm : v ∈ l.filter (fun s => s.codecType = "video") := by
        rw [hf]; exact List.mem_cons_self _ _
      simpa using (List.mem_filter.mp hm).2
    simp [countVideo_cons, countVideo_nil, hv]

theorem cleanup_outcome (tempCover tempOut : String) (r : RunResult) :
    (cleanup_temps tempCover tempOut r).outcome = r.outcome := rfl

/-! ## Claim C10 -/

/-- Claim C10: in the CLI variant, the startup tool-availability check
references `sys.exit(1)` although `sys` is never imported in that module,
so whenever ffmpeg is missing or not executable, `check_ffmpeg` raises a
NameError instead of terminating cleanly with exit code 1. -/
theorem c10_check_ffmpeg_name_error :
    EmbedCover.check_ffmpeg false = EmbedCover.CheckResult.nameError
    ∧ "sys" ∉ EmbedCover.moduleImports
    ∧ EmbedCover.check_ffmpeg false ≠ EmbedCover.CheckResult.exited 1
    ∧ EmbedCover.check_ffmpeg true = EmbedCover.CheckResult.ok := by
  refine ⟨by decide, by decide, by decide, by decide⟩

/-! ## Claim C9 -/

/-- Claim C9, counterexample: a batch containing a file whose mux fails
records a Failed outcome, yet the CLI process exit status is 0, not
non-zero. -/
theorem c9_counterexample :
    (EmbedCover.run_batch [(envMuxFail, "a.mp4", "c.jpg")] (fsOf "a.mp4" fileNoCover)).1
        = [("a.mp4", Outcome.failed "mux tool error")]
    ∧ EmbedCover.main_exit_status
        (EmbedCover.run_batch [(envMuxFail, "a.mp4", "c.jpg")] (fsOf "a.mp4" fileNoCover)).1
        = 0 := by
  refine ⟨by decide, rfl⟩

/-- Claim C9 (amended): the CLI batch loop prints one per-file log line
per discovered file, in discovery order, but `main` keeps no
success/skip/fail counters and the process exit status is 0 regardless of
outcomes, including runs with Failed outcomes. -/
theorem c9_cli_always_exits_zero (tasks : List (ToolEnv × String × String)) (fs : FS) :
    EmbedCover.main_exit_status (EmbedCover.run_batch tasks fs).1 = 0
    ∧ (EmbedCover.run_batch tasks fs).1.map Prod.fst = tasks.map (fun t => t.2.1) := by
  refine ⟨rfl, ?_⟩
  induction tasks generalizing fs with
  | nil => simp [EmbedCover.run_batch]
  | cons t rest ih =>
    obtain ⟨env, vp, tc⟩ := t
    simp [EmbedCover.run_batch, ih]

/-! ## Claim C2 -/

/-- Claim C2, counterexample: probe failure during the decide-skip check
does not yield Failed.  Both variants swallow the probe error as "no
cover" and run the remaining steps: on a file that actually carries an
attached picture, a run with a failing probe ends in Success and
re-muxes the file. -/
theorem c2_counterexample :
    EmbedCover.has_embedded_cover true (some fileWithCover) = true
    ∧ (EmbedCover.process_video envProbeFail "a.mp4" "c.jpg"
        (fsOf "a.mp4" fileWithCover)).outcome = Outcome.success
    ∧ (Gui.process_single_video envProbeFail false (Gui.Mode.time 5) none
        "a.mp4" "c.jpg" "o.tmp" (fsOf "a.mp4" fileWithCover)).outcome = Outcome.success
    ∧ Outcome.isFailed (EmbedCover.process_video envProbeFail "a.mp4" "c.jpg"
        (fsOf "a.mp4" fileWithCover)).outcome = false := by
  refine ⟨by decide, by decide, by decide, by decide⟩

/-- Claim C2 (amended): when the metadata probe fails during the
decide-skip check with overwriteExisting false, `has_embedded_cover`
returns False in both variants and the pipeline proceeds to the later
steps as if the file had no attached cover; the probe error is never
surfaced as a Failed outcome of the skip check. -/
theorem c2_probe_failure_proceeds (f : Option Content) (env : ToolEnv)
    (mode : Gui.Mode) (outDir : Option String)
    (videoPath tempCover tempOut : String) (fs : FS)
    (h : env.coverProbeOk = false) :
    EmbedCover.has_embedded_cover env.coverProbeOk f = false
    ∧ Gui.has_embedded_cover env.coverProbeOk f = false
    ∧ (EmbedCover.process_video env videoPath tempCover fs).outcome
        ≠ Outcome.skipped "already has cover"
    ∧ (Gui.process_single_video env false mode outDir videoPath tempCover tempOut fs).outcome
        ≠ Outcome.skipped "already has cover" := by
  refine ⟨by simp [EmbedCover.has_embedded_cover, h], by simp [Gui.has_embedded_cover, h], ?_, ?_⟩
  · unfold EmbedCover.process_video
    have hcov : EmbedCover.has_embedded_cover env.coverProbeOk (fs videoPath) = false := by
      simp [EmbedCover.has_embedded_cover, h]
    rw [hcov]
    repeat' split
    all_goals simp_all [cleanup_outcome, apply_ite RunResult.outcome, ite_eq_iff]
  · unfold Gui.process_single_video
    have hcov : Gui.has_embedded_cover env.coverProbeOk (fs videoPath) = false := by
      simp [Gui.has_embedded_cover, h]
    rw [hcov]
    repeat' split
    all_goals simp_all [cleanup_outcome, apply_ite RunResult.outcome, ite_eq_iff]

theorem cleanup_trace_all (p : Ev → Bool) (tempCover tempOut : String) (r : RunResult)
    (hr : r.trace.all p = true) (h1 : p (Ev.remove tempCover) = true)
    (h2 : p (Ev.remove tempOut) = true) :
    ((cleanup_temps tempCover tempOut r).trace.all p) = true := by
  unfold cleanup_temps
  simp only [List.all_append, Bool.and_eq_true]
  refine ⟨⟨hr, ?_⟩, ?_⟩
  · split <;> simp [h1]
  · split <;> simp [h2]

theorem cleanup_trace_sublist (l : List Ev) (tempCover tempOut : String) (r : RunResult)
    (h : List.Sublist l r.trace) :
    List.Sublist l (cleanup_temps tempCover tempOut r).trace := by
  unfold cleanup_temps
  exact (h.trans (List.sublist_append_left _ _)).trans (List.sublist_append_left _ _)

theorem cleanup_fs_other (tempCover tempOut q : String) (r : RunResult)
    (h1 : q ≠ tempCover) (h2 : q ≠ tempOut) :
    (cleanup_temps tempCover tempOut r).fs q = r.fs q := by
  simp only [cleanup_temps]
  split <;> split <;> simp [FS.upd, h1, h2]

theorem cleanup_fs_clean (tempCover tempOut : String) (r : RunResult) :
    (cleanup_temps tempCover tempOut r).fs tempCover = none
    ∧ (cleanup_temps tempCover tempOut r).fs tempOut = none := by
  simp only [cleanup_temps]
  by_cases hA : (r.fs tempCover).isSome <;>
    by_cases hB : ((if (r.fs tempCover).isSome then r.fs.upd tempCover none else r.fs)
        tempOut).isSome <;>
    simp_all [FS.upd, Option.not_isSome_iff_eq_none]

theorem cli_trace_touches (env : ToolEnv) (vp tc : String) (fs : FS) (hc : tc ≠ vp) :
    ((EmbedCover.process_video env vp tc fs).trace.all fun e =>
      !touchesPath e vp || decide (e = Ev.move (EmbedCover.temp_output_path vp) vp)) = true := by
  have hto : EmbedCover.temp_output_path vp ≠ vp := temp_output_path_ne vp
  simp only [EmbedCover.process_video]
  repeat' split
  all_goals first
    | (simp; done)
    | (apply cleanup_trace_all <;> simp [touchesPath, hc, hto])

theorem cli_fail_unchanged (env : ToolEnv) (vp tc : String) (fs : FS) (hc : tc ≠ vp)
    (h : (EmbedCover.process_video env vp tc fs).outcome ≠ Outcome.success) :
    (EmbedCover.process_video env vp tc fs).fs vp = fs vp := by
  have hto : EmbedCover.temp_output_path vp ≠ vp := temp_output_path_ne vp
  revert h
  simp only [EmbedCover.process_video]
  repeat' split
  all_goals intro h
  all_goals first
    | rfl
    | exact absurd rfl h
    | (rw [cleanup_fs_other _ _ _ _ (Ne.symm hc) (Ne.symm hto)]
       simp [FS.upd, Ne.symm hc, Ne.symm hto])

theorem cli_success_commit (env : ToolEnv) (vp tc : String) (fs : FS) (hc : tc ≠ vp)
    (hcto : tc ≠ EmbedCover.temp_output_path vp)
    (h : (EmbedCover.process_video env vp tc fs).outcome = Outcome.success) :
    List.Sublist
        [Ev.write (EmbedCover.temp_output_path vp)
            (Content.video (EmbedCover.embed_streams (streamsOf (fs vp)))),
         Ev.move (EmbedCover.temp_output_path vp) vp]
        (EmbedCover.process_video env vp tc fs).trace
    ∧ (EmbedCover.process_video env vp tc fs).fs vp
        = some (Content.video (EmbedCover.embed_streams (streamsOf (fs vp)))) := by
  have hto : EmbedCover.temp_output_path vp ≠ vp := temp_output_path_ne vp
  revert h
  simp only [EmbedCover.process_video]
  repeat' split
  all_goals intro h
  all_goals try (exact Outcome.noConfusion h)
  refine ⟨?_, ?_⟩
  · apply cleanup_trace_sublist
    simp [FS.upd, Ne.symm hc, Ne.symm hto]
    exact List.Sublist.cons _ (List.Sublist.cons _ (List.Sublist.cons _
      (List.Sublist.cons₂ _ (List.Sublist.cons₂ _ List.Sublist.slnil))))
  · rw [cleanup_fs_other _ _ _ _ (Ne.symm hc) (Ne.symm hto)]
    simp [FS.upd, Ne.symm hc, Ne.symm hto]

theorem cli_temps_clean (env : ToolEnv) (vp tc : String) (fs : FS)
    (h0c : fs tc = none) (h0o : fs (EmbedCover.temp_output_path vp) = none) :
    (EmbedCover.process_video env vp tc fs).fs tc = none
    ∧ (EmbedCover.process_video env vp tc fs).fs (EmbedCover.temp_output_path vp) = none := by
  simp only [EmbedCover.process_video]
  repeat' split
  all_goals first
    | (exact ⟨h0c, h0o⟩)
    | (exact cleanup_fs_clean _ _ _)

theorem cli_extract_ts (env : ToolEnv) (vp tc : String) (fs : FS) :
    ((EmbedCover.process_video env vp tc fs).trace.all fun e =>
      match e with
      | Ev.extractFrame ts _ => ts = EmbedCover.THUMBNAIL_TIME_SECONDS
      | _ => true) = true := by
  simp only [EmbedCover.process_video]
  repeat' split
  all_goals first
    | (simp; done)
    | (apply cleanup_trace_all <;> simp)

theorem gui_trace_touches (env : ToolEnv) (ow : Bool) (mode : Gui.Mode)
    (outDir : Option String) (vp tc tout : String) (fs : FS)
    (hc : tc ≠ vp) (hto : tout ≠ vp) :
    ((Gui.process_single_video env ow mode outDir vp tc tout fs).trace.all fun e =>
      !touchesPath e vp || decide (e = Ev.move tout (Gui.final_path outDir vp))) = true := by
  simp only [Gui.process_single_video]
  repeat' split
  all_goals first
    | (simp; done)
    | (apply cleanup_trace_all <;> simp [touchesPath, hc, hto])

theorem gui_fail_unchanged (env : ToolEnv) (ow : Bool) (mode : Gui.Mode)
    (outDir : Option String) (vp tc tout : String) (fs : FS)
    (hc : tc ≠ vp) (hto : tout ≠ vp)
    (h : (Gui.process_single_video env ow mode outDir vp tc tout fs).outcome ≠ Outcome.success) :
    (Gui.process_single_video env ow mode outDir vp tc tout fs).fs vp = fs vp := by
  revert h
  simp only [Gui.process_single_video]
  repeat' split
  all_goals intro h
  all_goals first
    | rfl
    | exact absurd rfl h
    | (rw [cleanup_fs_other _ _ _ _ (Ne.symm hc) (Ne.symm hto)]
       simp [FS.upd, Ne.symm hc, Ne.symm hto])

theorem gui_success_commit (env : ToolEnv) (ow : Bool) (mode : Gui.Mode)
    (outDir : Option String) (vp tc tout : String) (fs : FS)
    (hc : tc ≠ vp) (hto : tout ≠ vp) (hcto : tc ≠ tout)
    (hdc : Gui.final_path outDir vp ≠ tc) (hdo : Gui.final_path outDir vp ≠ tout)
    (h : (Gui.process_single_video env ow mode outDir vp tc tout fs).outcome = Outcome.success) :
    List.Sublist
        [Ev.write tout (Content.video (Gui.embed_streams (streamsOf (fs vp)))),
         Ev.move tout (Gui.final_path outDir vp)]
        (Gui.process_single_video env ow mode outDir vp tc tout fs).trace
    ∧ (Gui.process_single_video env ow mode outDir vp tc tout fs).fs (Gui.final_path outDir vp)
        = some (Content.video (Gui.embed_streams (streamsOf (fs vp)))) := by
  revert h
  simp only [Gui.process_single_video]
  repeat' split
  all_goals intro h
  all_goals try (exact Outcome.noConfusion h)
  refine ⟨?_, ?_⟩
  · apply cleanup_trace_sublist
    simp [FS.upd, Ne.symm hc, Ne.symm hto]
    exact List.Sublist.cons _ (List.Sublist.cons _ (List.Sublist.cons _ (List.Sublist.cons _
      (List.Sublist.cons₂ _ (List.Sublist.cons₂ _ List.Sublist.slnil)))))
  · rw [cleanup_fs_other _ _ _ _ hdc hdo]
    simp [FS.upd, Ne.symm hc, Ne.symm hto, hdo]

theorem gui_temps_clean (env : ToolEnv) (ow : Bool) (mode : Gui.Mode)
    (outDir : Option String) (vp tc tout : String) (fs : FS)
    (h0c : fs tc = none) (h0o : fs tout = none) :
    (Gui.process_single_video env ow mode outDir vp tc tout fs).fs tc = none
    ∧ (Gui.process_single_video env ow mode outDir vp tc tout fs).fs tout = none := by
  simp only [Gui.process_single_video]
  repeat' split
  all_goals first
    | (exact ⟨h0c, h0o⟩)
    | (exact cleanup_fs_clean _ _ _)

theorem gui_extract_ts (env : ToolEnv) (ow : Bool) (mode : Gui.Mode)
    (outDir : Option String) (vp tc tout : String) (fs : FS) :
    ((Gui.process_single_video env ow mode outDir vp tc tout fs).trace.all fun e =>
      match e with
      | Ev.extractFrame ts _ =>
          ts = Gui.compute_second mode (get_video_duration env.durationProbed)
      | _ => true) = true := by
  simp only [Gui.process_single_video]
  repeat' split
  all_goals first
    | (simp; done)
    | (apply cleanup_trace_all <;> simp)

theorem cli_skip_when_cover (env : ToolEnv) (vp tc : String) (fs : FS)
    (h : EmbedCover.has_embedded_cover env.coverProbeOk (fs vp) = true) :
    EmbedCover.process_video env vp tc fs
      = { outcome := Outcome.skipped "already has cover", fs := fs, trace := [] } := by
  simp only [EmbedCover.process_video, h]
  simp

theorem gui_skip_when_cover (env : ToolEnv) (mode : Gui.Mode) (outDir : Option String)
    (vp tc tout : String) (fs : FS)
    (h : Gui.has_embedded_cover env.coverProbeOk (fs vp) = true) :
    Gui.process_single_video env false mode outDir vp tc tout fs
      = { outcome := Outcome.skipped "already has cover", fs := fs, trace := [] } := by
  simp only [Gui.process_single_video, h]
  simp

/-! ## Claim C1 -/

/-- Claim C1: with the InPlace destination policy (the CLI always, the GUI
with no output directory), the original path is touched by no event of the
run other than the single commit move from the temporary output path,
which differs from the original path; the complete muxed container is
written to that temporary path strictly before the commit move; and on any
non-success outcome, including a failing commit move, the bytes at the
original path are exactly those before the run. -/
theorem c1_inplace_commit (envC envG : ToolEnv) (owG : Bool) (modeG : Gui.Mode)
    (vp tcC vpG tcG toG : String) (fsC fsG : FS)
    (hc : tcC ≠ vp) (hcto : tcC ≠ EmbedCover.temp_output_path vp)
    (hgc : tcG ≠ vpG) (hgo : toG ≠ vpG) (hgco : tcG ≠ toG) :
    EmbedCover.temp_output_path vp ≠ vp
    ∧ inplaceCommitProp (EmbedCover.temp_output_path vp) vp
        (Content.video (EmbedCover.embed_streams (streamsOf (fsC vp)))) fsC
        (EmbedCover.process_video envC vp tcC fsC)
    ∧ inplaceCommitProp toG vpG
        (Content.video (Gui.embed_streams (streamsOf (fsG vpG)))) fsG
        (Gui.process_single_video envG owG modeG none vpG tcG toG fsG) := by
  simp only [inplaceCommitProp]
  refine ⟨temp_output_path_ne vp,
    ⟨cli_trace_touches envC vp tcC fsC hc, ?_, ?_⟩, ⟨?_, ?_, ?_⟩⟩
  · intro h
    exact cli_fail_unchanged envC vp tcC fsC hc h
  · intro h
    exact (cli_success_commit envC vp tcC fsC hc hcto h).1
  · exact gui_trace_touches envG owG modeG none vpG tcG toG fsG hgc hgo
  · intro h
    exact gui_fail_unchanged envG owG modeG none vpG tcG toG fsG hgc hgo h
  · intro h
    exact (gui_success_commit envG owG modeG none vpG tcG toG fsG hgc hgo hgco
      (Ne.symm hgc) (Ne.symm hgo) h).1

/-- Claim C1, witness at a concrete run of each variant. -/
theorem c1_inplace_commit_witness :
    EmbedCover.temp_output_path "a.mp4" ≠ "a.mp4"
    ∧ inplaceCommitProp (EmbedCover.temp_output_path "a.mp4") "a.mp4"
        (Content.video (EmbedCover.embed_streams (streamsOf (fsOf "a.mp4" fileNoCover "a.mp4"))))
        (fsOf "a.mp4" fileNoCover)
        (EmbedCover.process_video envAllOk "a.mp4" "c.jpg" (fsOf "a.mp4" fileNoCover))
    ∧ inplaceCommitProp "o.tmp" "b.mp4"
        (Content.video (Gui.embed_streams (streamsOf (fsOf "b.mp4" fileNoCover "b.mp4"))))
        (fsOf "b.mp4" fileNoCover)
        (Gui.process_single_video envAllOk false (Gui.Mode.time 5) none "b.mp4" "d.jpg" "o.tmp"
          (fsOf "b.mp4" fileNoCover)) :=
  c1_inplace_commit envAllOk envAllOk false (Gui.Mode.time 5)
    "a.mp4" "c.jpg" "b.mp4" "d.jpg" "o.tmp"
    (fsOf "a.mp4" fileNoCover) (fsOf "b.mp4" fileNoCover)
    (by decide) (by decide) (by decide) (by decide) (by decide)

/-! ## Claim C6 -/

/-- Claim C6: for every exit path of both pipeline variants, the two
temporary artifacts of the invocation (extracted cover image and temporary
muxed container) are absent when the invocation returns, provided the temp
paths were fresh at the start: the finally-block cleanup runs on every
path that created them and removes whatever the commit move did not
consume, and early-skip paths create nothing.  Cleanup is idempotent
(a second pass changes no path) and does not alter the outcome. -/
theorem c6_temp_cleanup (envC envG : ToolEnv) (owG : Bool) (modeG : Gui.Mode)
    (outDirG : Option String) (vp tcC vpG tcG toG q1 q2 : String) (fsC fsG : FS)
    (r : RunResult)
    (h0c : fsC tcC = none) (h0o : fsC (EmbedCover.temp_output_path vp) = none)
    (hg0c : fsG tcG = none) (hg0o : fsG toG = none) :
    ((EmbedCover.process_video envC vp tcC fsC).fs tcC = none
      ∧ (EmbedCover.process_video envC vp tcC fsC).fs (EmbedCover.temp_output_path vp) = none)
    ∧ ((Gui.process_single_video envG owG modeG outDirG vpG tcG toG fsG).fs tcG = none
      ∧ (Gui.process_single_video envG owG modeG outDirG vpG tcG toG fsG).fs toG = none)
    ∧ (cleanup_temps q1 q2 (cleanup_temps q1 q2 r)).fs vp = (cleanup_temps q1 q2 r).fs vp
    ∧ (cleanup_temps q1 q2 r).outcome = r.outcome := by
  refine ⟨cli_temps_clean envC vp tcC fsC h0c h0o,
    gui_temps_clean envG owG modeG outDirG vpG tcG toG fsG hg0c hg0o, ?_,
    cleanup_outcome q1 q2 r⟩
  by_cases h1 : vp = q1
  · subst h1
    rw [(cleanup_fs_clean _ _ _).1, (cleanup_fs_clean _ _ _).1]
  · by_cases h2 : vp = q2
    · subst h2
      rw [(cleanup_fs_clean _ _ _).2, (cleanup_fs_clean _ _ _).2]
    · rw [cleanup_fs_other _ _ _ _ h1 h2]

/-- Claim C6, witness at a concrete run of each variant. -/
theorem c6_temp_cleanup_witness :
    ((EmbedCover.process_video envAllOk "a.mp4" "c.jpg" (fsOf "a.mp4" fileNoCover)).fs "c.jpg" = none
      ∧ (EmbedCover.process_video envAllOk "a.mp4" "c.jpg" (fsOf "a.mp4" fileNoCover)).fs
          (EmbedCover.temp_output_path "a.mp4") = none)
    ∧ ((Gui.process_single_video envAllOk false (Gui.Mode.time 5) (some "out") "b.mp4" "d.jpg"
          "o.tmp" (fsOf "b.mp4" fileNoCover)).fs "d.jpg" = none
      ∧ (Gui.process_single_video envAllOk false (Gui.Mode.time 5) (some "out") "b.mp4" "d.jpg"
          "o.tmp" (fsOf "b.mp4" fileNoCover)).fs "o.tmp" = none)
    ∧ (cleanup_temps "x.jpg" "y.tmp" (cleanup_temps "x.jpg" "y.tmp"
          { outcome := Outcome.success, fs := fsOf "a.mp4" fileNoCover, trace := [] })).fs "a.mp4"
        = (cleanup_temps "x.jpg" "y.tmp"
          { outcome := Outcome.success, fs := fsOf "a.mp4" fileNoCover, trace := [] }).fs "a.mp4"
    ∧ (cleanup_temps "x.jpg" "y.tmp"
          { outcome := Outcome.success, fs := fsOf "a.mp4" fileNoCover, trace := [] }).outcome
        = Outcome.success :=
  c6_temp_cleanup envAllOk envAllOk false (Gui.Mode.time 5) (some "out")
    "a.mp4" "c.jpg" "b.mp4" "d.jpg" "o.tmp" "x.jpg" "y.tmp"
    (fsOf "a.mp4" fileNoCover) (fsOf "b.mp4" fileNoCover)
    { outcome := Outcome.success, fs := fsOf "a.mp4" fileNoCover, trace := [] }
    (by decide) (by decide) (by decide) (by decide)

/-! ## Claim C4 -/

/-- Claim C4, counterexample: in the CLI variant a probed duration of 0
does not terminate with Failed("duration unavailable"); it falls into the
below-threshold branch and terminates Skipped. -/
theorem c4_counterexample :
    (EmbedCover.process_video envDurZero "a.mp4" "c.jpg" (fsOf "a.mp4" fileNoCover)).outcome
        = Outcome.skipped "shorter than thumbnail time"
    ∧ Outcome.isFailed (EmbedCover.process_video envDurZero "a.mp4" "c.jpg"
        (fsOf "a.mp4" fileNoCover)).outcome = false := by
  refine ⟨by decide, by decide⟩

/-- Claim C4 (amended): in the GUI variant, a task that passes the
decide-skip check and probes duration 0 terminates with
Failed("duration unavailable"), and FixedSeconds(s) with 0 < duration < s
terminates with Skipped("too short"); the CLI variant has no separate
duration-0 branch: every duration below its fixed 20-second threshold,
including 0, terminates Skipped.  In all three cases the run performs no
filesystem event and the filesystem is returned unchanged. -/
theorem c4_duration_checks (env0 envT envC : ToolEnv) (ow0 owT : Bool)
    (mode0 : Gui.Mode) (outDir0 outDirT : Option String)
    (vp0 tc0 to0 vpT tcT toT vpC tcC : String) (fs0 fsT fsC : FS) (s : Rat)
    (hskip0 : (!ow0 && Gui.has_embedded_cover env0.coverProbeOk (fs0 vp0)) = false)
    (hskipT : (!owT && Gui.has_embedded_cover envT.coverProbeOk (fsT vpT)) = false)
    (hskipC : EmbedCover.has_embedded_cover envC.coverProbeOk (fsC vpC) = false) :
    (get_video_duration env0.durationProbed = 0 →
      Gui.process_single_video env0 ow0 mode0 outDir0 vp0 tc0 to0 fs0
        = { outcome := Outcome.failed "duration unavailable", fs := fs0, trace := [] })
    ∧ (0 < get_video_duration envT.durationProbed →
        get_video_duration envT.durationProbed < s →
      Gui.process_single_video envT owT (Gui.Mode.time s) outDirT vpT tcT toT fsT
        = { outcome := Outcome.skipped "too short for requested timestamp",
            fs := fsT, trace := [] })
    ∧ (get_video_duration envC.durationProbed < EmbedCover.THUMBNAIL_TIME_SECONDS →
      EmbedCover.process_video envC vpC tcC fsC
        = { outcome := Outcome.skipped "shorter than thumbnail time",
            fs := fsC, trace := [] }) := by
  refine ⟨?_, ?_, ?_⟩
  · intro hd
    simp only [Gui.process_single_video, hskip0, hd]
    simp
  · intro h0 hlt
    have hne : get_video_duration envT.durationProbed ≠ 0 := ne_of_gt h0
    have hts : Gui.tooShort (Gui.Mode.time s) (get_video_duration envT.durationProbed)
        = true := by
      simp [Gui.tooShort, hlt]
    simp only [Gui.process_single_video, hskipT]
    simp [hne, hts]
  · intro hd
    simp only [EmbedCover.process_video, hskipC, hd]
    simp [hd]

/-- Claim C4, witness at concrete runs whose premises hold. -/
theorem c4_duration_checks_witness :
    (get_video_duration envDurZero.durationProbed = 0 →
      Gui.process_single_video envDurZero false (Gui.Mode.time 20) none "a.mp4" "c.jpg" "o.tmp"
          (fsOf "a.mp4" fileNoCover)
        = { outcome := Outcome.failed "duration unavailable",
            fs := fsOf "a.mp4" fileNoCover, trace := [] })
    ∧ (0 < get_video_duration envDur20.durationProbed →
        get_video_duration envDur20.durationProbed < 30 →
      Gui.process_single_video envDur20 false (Gui.Mode.time 30) none "b.mp4" "d.jpg" "p.tmp"
          (fsOf "b.mp4" fileNoCover)
        = { outcome := Outcome.skipped "too short for requested timestamp",
            fs := fsOf "b.mp4" fileNoCover, trace := [] })
    ∧ (get_video_duration envDurZero.durationProbed < EmbedCover.THUMBNAIL_TIME_SECONDS →
      EmbedCover.process_video envDurZero "e.mp4" "f.jpg" (fsOf "e.mp4" fileNoCover)
        = { outcome := Outcome.skipped "shorter than thumbnail time",
            fs := fsOf "e.mp4" fileNoCover, trace := [] }) :=
  c4_duration_checks envDurZero envDur20 envDurZero false false (Gui.Mode.time 20)
    none none "a.mp4" "c.jpg" "o.tmp" "b.mp4" "d.jpg" "p.tmp" "e.mp4" "f.jpg"
    (fsOf "a.mp4" fileNoCover) (fsOf "b.mp4" fileNoCover) (fsOf "e.mp4" fileNoCover) 30
    (by decide) (by decide) (by decide)

/-! ## Claim C7 -/

/-- Claim C7, counterexample: FixedSeconds(20) with probed duration
exactly 20 passes the decide-skip and duration checks and runs to
Success, extracting at timestamp 20; that timestamp equals the duration,
so it is not strictly less than the probed duration as claimed. -/
theorem c7_counterexample :
    (Gui.process_single_video envDur20 false (Gui.Mode.time 20) none "a.mp4" "c.jpg" "o.tmp"
        (fsOf "a.mp4" fileNoCover)).outcome = Outcome.success
    ∧ Ev.extractFrame 20 "c.jpg" ∈ (Gui.process_single_video envDur20 false (Gui.Mode.time 20)
        none "a.mp4" "c.jpg" "o.tmp" (fsOf "a.mp4" fileNoCover)).trace
    ∧ Gui.compute_second (Gui.Mode.time 20) (get_video_duration envDur20.durationProbed)
        = get_video_duration envDur20.durationProbed
    ∧ ¬ (Gui.compute_second (Gui.Mode.time 20) (get_video_duration envDur20.durationProbed)
        < get_video_duration envDur20.durationProbed) := by
  refine ⟨by decide, by decide, by decide, by decide⟩

/-- Claim C7 (amended): every frame extraction of a GUI run happens at the
timestamp compute_second(mode, duration), which is duration*p/100 in
Percent(p) mode and s in FixedSeconds(s) mode; for a task that passes the
too-short check, with the mode value in the ranges the settings UI
enforces and a positive probed duration, that timestamp is ≥ 0 and ≤ the
probed duration (equality is reached in FixedSeconds mode when
duration = s, so the strict bound of the original claim fails).  The CLI
variant always extracts at its fixed 20-second timestamp. -/
theorem c7_timestamp_bounds (env envC : ToolEnv) (ow : Bool) (mode : Gui.Mode)
    (outDir : Option String) (vp tc tout vpC tcC : String) (fs fsC : FS)
    (hv : Gui.modeValueOk mode)
    (hd : 0 < get_video_duration env.durationProbed)
    (hts : Gui.tooShort mode (get_video_duration env.durationProbed) = false) :
    ((Gui.process_single_video env ow mode outDir vp tc tout fs).trace.all fun e =>
      match e with
      | Ev.extractFrame ts _ =>
          ts = Gui.compute_second mode (get_video_duration env.durationProbed)
      | _ => true) = true
    ∧ 0 ≤ Gui.compute_second mode (get_video_duration env.durationProbed)
    ∧ Gui.compute_second mode (get_video_duration env.durationProbed)
        ≤ get_video_duration env.durationProbed
    ∧ ((EmbedCover.process_video envC vpC tcC fsC).trace.all fun e =>
      match e with
      | Ev.extractFrame ts _ => ts = EmbedCover.THUMBNAIL_TIME_SECONDS
      | _ => true) = true := by
  refine ⟨gui_extract_ts env ow mode outDir vp tc tout fs, ?_, ?_,
    cli_extract_ts envC vpC tcC fsC⟩
  · cases mode with
    | percent p =>
      obtain ⟨hp0, _⟩ := hv
      exact div_nonneg (mul_nonneg hd.le hp0) (by norm_num)
    | time v => exact hv
  · cases mode with
    | percent p =>
      obtain ⟨_, hp100⟩ := hv
      simp only [Gui.compute_second]
      rw [div_le_iff (by norm_num : (0 : Rat) < 100)]
      exact mul_le_mul_of_nonneg_left hp100 hd.le
    | time v =>
      simp only [Gui.compute_second]
      simp only [Gui.tooShort, decide_eq_false_iff_not, not_lt] at hts
      exact hts

/-- Claim C7, witness at a concrete Percent-mode run. -/
theorem c7_timestamp_bounds_witness :
    ((Gui.process_single_video envAllOk false (Gui.Mode.percent 20) none "a.mp4" "c.jpg" "o.tmp"
        (fsOf "a.mp4" fileNoCover)).trace.all fun e =>
      match e with
      | Ev.extractFrame ts _ =>
          ts = Gui.compute_second (Gui.Mode.percent 20) (get_video_duration envAllOk.durationProbed)
      | _ => true) = true
    ∧ 0 ≤ Gui.compute_second (Gui.Mode.percent 20) (get_video_duration envAllOk.durationProbed)
    ∧ Gui.compute_second (Gui.Mode.percent 20) (get_video_duration envAllOk.durationProbed)
        ≤ get_video_duration envAllOk.durationProbed
    ∧ ((EmbedCover.process_video envAllOk "b.mp4" "d.jpg" (fsOf "b.mp4" fileNoCover)).trace.all
      fun e =>
      match e with
      | Ev.extractFrame ts _ => ts = EmbedCover.THUMBNAIL_TIME_SECONDS
      | _ => true) = true :=
  c7_timestamp_bounds envAllOk envAllOk false (Gui.Mode.percent 20) none
    "a.mp4" "c.jpg" "o.tmp" "b.mp4" "d.jpg"
    (fsOf "a.mp4" fileNoCover) (fsOf "b.mp4" fileNoCover)
    ⟨by decide, by decide⟩ (by decide) (by decide)

/-! ## Claim C3 -/

/-- Claim C3, counterexample: a successful CLI run on a file holding a
video stream and a subtitle stream writes a container that has dropped
the subtitle stream — the mux command maps only the first video stream
and the audio streams, not every stream of the original. -/
theorem c3_counterexample :
    (EmbedCover.process_video envAllOk "a.mp4" "c.jpg" (fsOf "a.mp4" fileWithSub)).outcome
        = Outcome.success
    ∧ ({ codecType := "subtitle", attachedPic := false } : StreamInfo)
        ∈ streamsOf (fsOf "a.mp4" fileWithSub "a.mp4")
    ∧ (EmbedCover.process_video envAllOk "a.mp4" "c.jpg" (fsOf "a.mp4" fileWithSub)).fs "a.mp4"
        = some (Content.video [{ codecType := "video", attachedPic := false },
                               { codecType := "video", attachedPic := true }])
    ∧ ¬ (({ codecType := "subtitle", attachedPic := false } : StreamInfo)
        ∈ streamsOf ((EmbedCover.process_video envAllOk "a.mp4" "c.jpg"
            (fsOf "a.mp4" fileWithSub)).fs "a.mp4")) := by
  refine ⟨by decide, by decide, by decide, by decide⟩

/-- Claim C3 (amended): on a successful run the muxed container written to
the temporary path is, in the GUI variant, every original stream unchanged
plus one appended attached-picture stream (the appended image, whenever
the original holds exactly one video-typed stream); in the CLI variant it
is only the first video stream and the audio streams of the original plus
the appended attached-picture stream — subtitle, data and further video
streams are dropped. -/
theorem c3_mux_stream_maps (orig : List StreamInfo) (envC envG : ToolEnv) (ow : Bool)
    (mode : Gui.Mode) (outDir : Option String) (vp tcC vpG tcG toG : String) (fsC fsG : FS)
    (hone : countVideo orig = 1)
    (hc : tcC ≠ vp) (hcto : tcC ≠ EmbedCover.temp_output_path vp)
    (hgc : tcG ≠ vpG) (hgo : toG ≠ vpG) (hgco : tcG ≠ toG)
    (hdc : Gui.final_path outDir vpG ≠ tcG) (hdo : Gui.final_path outDir vpG ≠ toG)
    (hC : (EmbedCover.process_video envC vp tcC fsC).outcome = Outcome.success)
    (hG : (Gui.process_single_video envG ow mode outDir vpG tcG toG fsG).outcome
        = Outcome.success) :
    Gui.embed_streams orig = orig ++ [{ codecType := "video", attachedPic := true }]
    ∧ EmbedCover.embed_streams orig
        = (orig.filter (fun s => s.codecType = "video")).take 1
          ++ orig.filter (fun s => s.codecType = "audio")
          ++ [{ codecType := "video", attachedPic := true }]
    ∧ Ev.write (EmbedCover.temp_output_path vp)
        (Content.video (EmbedCover.embed_streams (streamsOf (fsC vp))))
        ∈ (EmbedCover.process_video envC vp tcC fsC).trace
    ∧ Ev.write toG (Content.video (Gui.embed_streams (streamsOf (fsG vpG))))
        ∈ (Gui.process_single_video envG ow mode outDir vpG tcG toG fsG).trace := by
  refine ⟨?_, ?_, ?_, ?_⟩
  · unfold Gui.embed_streams setDispositionV1
    exact setDispAux_append_cover orig 0 (by simpa using hone)
  · unfold EmbedCover.embed_streams setDispositionV1
    have h1 : countVideo ((orig.filter (fun s => s.codecType = "video")).take 1
        ++ orig.filter (fun s => s.codecType = "audio")) = 1 := by
      rw [countVideo_append, countVideo_filter_audio,
        countVideo_take_one orig (by omega)]
    exact setDispAux_append_cover _ 0 (by simpa using h1)
  · exact (cli_success_commit envC vp tcC fsC hc hcto hC).1.subset (by simp)
  · exact (gui_success_commit envG ow mode outDir vpG tcG toG fsG hgc hgo hgco
      hdc hdo hG).1.subset (by simp)

/-- Claim C3, witness at a concrete successful run of each variant. -/
theorem c3_mux_stream_maps_witness :
    Gui.embed_streams [{ codecType := "video", attachedPic := false }]
        = [{ codecType := "video", attachedPic := false }]
          ++ [{ codecType := "video", attachedPic := true }]
    ∧ EmbedCover.embed_streams [{ codecType := "video", attachedPic := false }]
        = ([{ codecType := "video", attachedPic := false }].filter
              (fun s => s.codecType = "video")).take 1
          ++ [{ codecType := "video", attachedPic := false }].filter
              (fun s => s.codecType = "audio")
          ++ [{ codecType := "video", attachedPic := true }]
    ∧ Ev.write (EmbedCover.temp_output_path "a.mp4")
        (Content.video (EmbedCover.embed_streams (streamsOf (fsOf "a.mp4" fileNoCover "a.mp4"))))
        ∈ (EmbedCover.process_video envAllOk "a.mp4" "c.jpg" (fsOf "a.mp4" fileNoCover)).trace
    ∧ Ev.write "o.tmp"
        (Content.video (Gui.embed_streams (streamsOf (fsOf "b.mp4" fileNoCover "b.mp4"))))
        ∈ (Gui.process_single_video envAllOk false (Gui.Mode.time 5) none "b.mp4" "d.jpg" "o.tmp"
            (fsOf "b.mp4" fileNoCover)).trace :=
  c3_mux_stream_maps [{ codecType := "video", attachedPic := false }] envAllOk envAllOk
    false (Gui.Mode.time 5) none "a.mp4" "c.jpg" "b.mp4" "d.jpg" "o.tmp"
    (fsOf "a.mp4" fileNoCover) (fsOf "b.mp4" fileNoCover)
    (by decide) (by decide) (by decide) (by decide) (by decide) (by decide)
    (by decide) (by decide) (by decide) (by decide)

/-! ## Claim C5 -/

/-- Claim C5, counterexample: with the CopyTo destination policy a
successful run leaves the original untouched, so an immediately repeated
run on the same path is not Skipped — it runs the whole pipeline again
and mutates the destination a second time. -/
theorem c5_counterexample :
    (Gui.process_single_video envAllOk false (Gui.Mode.time 5) (some "out")
        "a.mp4" "c1.jpg" "o1.tmp" (fsOf "a.mp4" fileNoCover)).outcome = Outcome.success
    ∧ (Gui.process_single_video envAllOk false (Gui.Mode.time 5) (some "out")
        "a.mp4" "c2.jpg" "o2.tmp"
        (Gui.process_single_video envAllOk false (Gui.Mode.time 5) (some "out")
          "a.mp4" "c1.jpg" "o1.tmp" (fsOf "a.mp4" fileNoCover)).fs).outcome = Outcome.success
    ∧ Outcome.isSkipped
        (Gui.process_single_video envAllOk false (Gui.Mode.time 5) (some "out")
          "a.mp4" "c2.jpg" "o2.tmp"
          (Gui.process_single_video envAllOk false (Gui.Mode.time 5) (some "out")
            "a.mp4" "c1.jpg" "o1.tmp" (fsOf "a.mp4" fileNoCover)).fs).outcome = false := by
  refine ⟨by decide, by decide, by decide⟩

/-- Claim C5 (amended): with the InPlace destination policy, after a
successful run on a genuine video file (at least one video-typed stream),
a second run with overwriteExisting false and a succeeding probe returns
Skipped("already has cover") immediately — the mux flagged a stream as the
attached picture and the decide-skip probe detects it — and the second run
leaves the filesystem exactly as the first run left it. -/
theorem c5_idempotent_inplace (env1 env2 envG1 envG2 : ToolEnv)
    (modeG1 : Gui.Mode) (modeG2 : Gui.Mode)
    (vp tc1 tc2 vpG tcG1 toG1 tcG2 toG2 : String) (fs fsG : FS)
    (hc1 : tc1 ≠ vp) (hcto1 : tc1 ≠ EmbedCover.temp_output_path vp)
    (hvid : 1 ≤ countVideo (streamsOf (fs vp)))
    (h1 : (EmbedCover.process_video env1 vp tc1 fs).outcome = Outcome.success)
    (hp2 : env2.coverProbeOk = true)
    (hgc1 : tcG1 ≠ vpG) (hgo1 : toG1 ≠ vpG) (hgco1 : tcG1 ≠ toG1)
    (hgvid : 1 ≤ countVideo (streamsOf (fsG vpG)))
    (hg1 : (Gui.process_single_video envG1 false modeG1 none vpG tcG1 toG1 fsG).outcome
        = Outcome.success)
    (hgp2 : envG2.coverProbeOk = true) :
    EmbedCover.process_video env2 vp tc2 (EmbedCover.process_video env1 vp tc1 fs).fs
      = { outcome := Outcome.skipped "already has cover",
          fs := (EmbedCover.process_video env1 vp tc1 fs).fs, trace := [] }
    ∧ Gui.process_single_video envG2 false modeG2 none vpG tcG2 toG2
        (Gui.process_single_video envG1 false modeG1 none vpG tcG1 toG1 fsG).fs
      = { outcome := Outcome.skipped "already has cover",
          fs := (Gui.process_single_video envG1 false modeG1 none vpG tcG1 toG1 fsG).fs,
          trace := [] } := by
  constructor
  · have hcontent := (cli_success_commit env1 vp tc1 fs hc1 hcto1 h1).2
    have hflag : (EmbedCover.embed_streams (streamsOf (fs vp))).any
        (fun s => s.attachedPic) = true := by
      apply any_pic_of_any_video_pic
      unfold EmbedCover.embed_streams setDispositionV1
      apply setDispAux_flag _ 0 (by omega)
      rw [Nat.zero_add, countVideo_append, countVideo_append,
        countVideo_take_one _ hvid, countVideo_filter_audio]
      simp [countVideo_cons, countVideo_nil, coverInputStream]
    apply cli_skip_when_cover
    rw [hcontent, hp2]
    simpa [EmbedCover.has_embedded_cover, streamsOf] using hflag
  · have hcontent := (gui_success_commit envG1 false modeG1 none vpG tcG1 toG1 fsG
      hgc1 hgo1 hgco1 (Ne.symm hgc1) (Ne.symm hgo1) hg1).2
    have hflag : (Gui.embed_streams (streamsOf (fsG vpG))).any
        (fun s => s.codecType = "video" && s.attachedPic) = true := by
      unfold Gui.embed_streams setDispositionV1
      apply setDispAux_flag _ 0 (by omega)
      rw [Nat.zero_add, countVideo_append]
      simp only [countVideo_cons, countVideo_nil, coverInputStream]
      simp
      omega
    apply gui_skip_when_cover
    rw [show Gui.final_path none vpG = vpG from rfl] at hcontent
    rw [hcontent, hgp2]
    simpa [Gui.has_embedded_cover, streamsOf] using hflag

/-- Claim C5, witness: a concrete in-place run of each variant followed by
its repeat. -/
theorem c5_idempotent_inplace_witness :
    EmbedCover.process_video envAllOk "a.mp4" "c2.jpg"
        (EmbedCover.process_video envAllOk "a.mp4" "c1.jpg" (fsOf "a.mp4" fileNoCover)).fs
      = { outcome := Outcome.skipped "already has cover",
          fs := (EmbedCover.process_video envAllOk "a.mp4" "c1.jpg"
            (fsOf "a.mp4" fileNoCover)).fs, trace := [] }
    ∧ Gui.process_single_video envAllOk false (Gui.Mode.time 5) none "b.mp4" "d2.jpg" "p2.tmp"
        (Gui.process_single_video envAllOk false (Gui.Mode.time 5) none "b.mp4" "d1.jpg" "p1.tmp"
          (fsOf "b.mp4" fileNoCover)).fs
      = { outcome := Outcome.skipped "already has cover",
          fs := (Gui.process_single_video envAllOk false (Gui.Mode.time 5) none "b.mp4" "d1.jpg"
            "p1.tmp" (fsOf "b.mp4" fileNoCover)).fs, trace := [] } :=
  c5_idempotent_inplace envAllOk envAllOk envAllOk envAllOk (Gui.Mode.time 5) (Gui.Mode.time 5)
    "a.mp4" "c1.jpg" "c2.jpg" "b.mp4" "d1.jpg" "p1.tmp" "d2.jpg" "p2.tmp"
    (fsOf "a.mp4" fileNoCover) (fsOf "b.mp4" fileNoCover)
    (by decide) (by decide) (by decide) (by decide) (by decide)
    (by decide) (by decide) (by decide) (by decide) (by decide) (by decide)

/-! ## Claim C8 -/

theorem schedStep_pending_nil (s s2 : SchedState) (e : SchedEv)
    (hp : s.pending = []) (h : schedStep s e = some s2) :
    s2.pending = [] ∧ ∀ t, e ≠ SchedEv.dispatchEv t := by
  cases e with
  | dispatchEv t => simp [schedStep, hp] at h
  | finishEv t o =>
    simp only [schedStep] at h
    split at h
    · obtain rfl := Option.some.inj h
      simp [hp]
    · exact absurd h (by simp)
  | cancelEv =>
    simp only [schedStep] at h
    obtain rfl := Option.some.inj h
    simp
  | stopReportEv =>
    simp only [schedStep] at h
    split at h
    · obtain rfl := Option.some.inj h
      simp [hp]
    · exact absurd h (by simp)

theorem schedStep_inflight (s s2 : SchedState) (e : SchedEv) (t : String)
    (h : schedStep s e = some s2)
    (ht : t ∈ s.inflight ∨ t ∈ s.finishedTasks.map Prod.fst) :
    t ∈ s2.inflight ∨ t ∈ s2.finishedTasks.map Prod.fst := by
  cases e with
  | dispatchEv t2 =>
    simp only [schedStep] at h
    split at h
    · exact absurd h (by simp)
    · split at h
      · obtain rfl := Option.some.inj h
        rcases ht with h1 | h1
        · exact Or.inl (by simp [h1])
        · exact Or.inr h1
      · exact absurd h (by simp)
  | finishEv t2 o =>
    simp only [schedStep] at h
    split at h
    · obtain rfl := Option.some.inj h
      rcases ht with h1 | h1
      · by_cases he : t = t2
        · subst he
          exact Or.inr (by simp)
        · exact Or.inl (by simpa using (List.mem_erase_of_ne he).mpr h1)
      · exact Or.inr (by simp [h1])
    · exact absurd h (by simp)
  | cancelEv =>
    simp only [schedStep] at h
    obtain rfl := Option.some.inj h
    simpa using ht
  | stopReportEv =>
    simp only [schedStep] at h
    split at h
    · obtain rfl := Option.some.inj h
      simpa using ht
    · exact absurd h (by simp)

theorem schedStep_stop_report (s1 w1 : SchedState) (e : SchedEv)
    (h : schedStep s1 e = some w1)
    (h0 : s1.stoppedReported = false) (h1 : w1.stoppedReported = true) :
    e = SchedEv.stopReportEv ∧ s1.cancelled = true ∧ s1.inflight = [] := by
  cases e with
  | dispatchEv t =>
    simp only [schedStep] at h
    split at h
    · exact absurd h (by simp)
    · split at h
      · obtain rfl := Option.some.inj h
        simp at h1
        rw [h0] at h1
        exact absurd h1 (by simp)
      · exact absurd h (by simp)
  | finishEv t o =>
    simp only [schedStep] at h
    split at h
    · obtain rfl := Option.some.inj h
      simp at h1
      rw [h0] at h1
      exact absurd h1 (by simp)
    · exact absurd h (by simp)
  | cancelEv =>
    simp only [schedStep] at h
    obtain rfl := Option.some.inj h
    simp at h1
    rw [h0] at h1
    exact absurd h1 (by simp)
  | stopReportEv =>
    simp only [schedStep] at h
    split at h
    · rename_i hcond
      exact ⟨rfl, by simp [hcond.1], hcond.2⟩
    · exact absurd h (by simp)

theorem schedRun_pending_nil (evs : List SchedEv) :
    ∀ (s w : SchedState), s.pending = [] → schedRun s evs = some w →
      w.pending = [] ∧ ∀ t, SchedEv.dispatchEv t ∉ evs := by
  induction evs with
  | nil =>
    intro s w hp h
    obtain rfl := Option.some.inj h
    exact ⟨hp, by simp⟩
  | cons e es ih =>
    intro s w hp h
    simp only [schedRun] at h
    cases hstep : schedStep s e with
    | none => rw [hstep] at h; exact absurd h (by simp)
    | some s2 =>
      rw [hstep] at h
      obtain ⟨hp2, hne⟩ := schedStep_pending_nil s s2 e hp hstep
      obtain ⟨hw, hes⟩ := ih s2 w hp2 h
      refine ⟨hw, fun t => ?_⟩
      simp only [List.mem_cons, not_or]
      exact ⟨fun hc => hne t hc.symm, hes t⟩

theorem schedRun_inflight (evs : List SchedEv) :
    ∀ (s w : SchedState) (t : String), schedRun s evs = some w →
      (t ∈ s.inflight ∨ t ∈ s.finishedTasks.map Prod.fst) →
      t ∈ w.inflight ∨ t ∈ w.finishedTasks.map Prod.fst := by
  induction evs with
  | nil =>
    intro s w t h ht
    obtain rfl := Option.some.inj h
    exact ht
  | cons e es ih =>
    intro s w t h ht
    simp only [schedRun] at h
    cases hstep : schedStep s e with
    | none => rw [hstep] at h; exact absurd h (by simp)
    | some s2 =>
      rw [hstep] at h
      exact ih s2 w t h (schedStep_inflight s s2 e t hstep ht)

/-- Claim C8: after the cancellation event (the queue-clearing step of
stop_processing) no queued task is ever dispatched in the rest of the run
and the queue stays empty; a task that was in flight at cancellation is,
at every later point, either still in flight or recorded with a terminal
outcome — no transition force-kills it; and the stopped report can only
happen at a stop-report step taken from a state whose in-flight pool has
fully drained with the cancellation flag set. -/
theorem c8_cancellation (s w s1 w1 : SchedState) (evs : List SchedEv) (t t2 : String)
    (e : SchedEv)
    (h : schedRun s (SchedEv.cancelEv :: evs) = some w)
    (h2 : t2 ∈ s.inflight)
    (h3 : schedStep s1 e = some w1)
    (h4 : s1.stoppedReported = false) (h5 : w1.stoppedReported = true) :
    SchedEv.dispatchEv t ∉ evs
    ∧ w.pending = []
    ∧ (t2 ∈ w.inflight ∨ t2 ∈ w.finishedTasks.map Prod.fst)
    ∧ (e = SchedEv.stopReportEv ∧ s1.cancelled = true ∧ s1.inflight = []) := by
  have hrun : schedRun { s with cancelled := true, pending := [] } evs = some w := by
    simpa [schedRun, schedStep] using h
  obtain ⟨hw, hnd⟩ := schedRun_pending_nil evs _ w rfl hrun
  refine ⟨hnd t, hw, ?_, schedStep_stop_report s1 w1 e h3 h4 h5⟩
  exact schedRun_inflight evs _ w t2 hrun (Or.inl (by simpa using h2))

/-- Claim C8, witness: one batch with a queued task and an in-flight task,
cancelled, drained, and reported stopped. -/
theorem c8_cancellation_witness :
    SchedEv.dispatchEv "p1" ∉ [SchedEv.finishEv "f1" Outcome.success, SchedEv.stopReportEv]
    ∧ (SchedState.mk [] [] [("f1", Outcome.success)] true true).pending = []
    ∧ ("f1" ∈ (SchedState.mk [] [] [("f1", Outcome.success)] true true).inflight
        ∨ "f1" ∈ (SchedState.mk [] [] [("f1", Outcome.success)] true true).finishedTasks.map
            Prod.fst)
    ∧ (SchedEv.stopReportEv = SchedEv.stopReportEv
        ∧ (SchedState.mk [] [] [("f1", Outcome.success)] true false).cancelled = true
        ∧ (SchedState.mk [] [] [("f1", Outcome.success)] true false).inflight = []) :=
  c8_cancellation
    (SchedState.mk ["p1"] ["f1"] [] false false)
    (SchedState.mk [] [] [("f1", Outcome.success)] true true)
    (SchedState.mk [] [] [("f1", Outcome.success)] true false)
    (SchedState.mk [] [] [("f1", Outcome.success)] true true)
    [SchedEv.finishEv "f1" Outcome.success, SchedEv.stopReportEv]
    "p1" "f1" SchedEv.stopReportEv
    (by decide) (by decide) (by decide) (by decide) (by decide)

/-- Claim C2, witness: a concrete run of each variant with a failing probe. -/
theorem c2_probe_failure_proceeds_witness :
    EmbedCover.has_embedded_cover envProbeFail.coverProbeOk (some fileWithCover) = false
    ∧ Gui.has_embedded_cover envProbeFail.coverProbeOk (some fileWithCover) = false
    ∧ (EmbedCover.process_video envProbeFail "a.mp4" "c.jpg"
        (fsOf "a.mp4" fileWithCover)).outcome ≠ Outcome.skipped "already has cover"
    ∧ (Gui.process_single_video envProbeFail false (Gui.Mode.time 5) none "a.mp4" "c.jpg" "o.tmp"
        (fsOf "a.mp4" fileWithCover)).outcome ≠ Outcome.skipped "already has cover" :=
  c2_probe_failure_proceeds (some fileWithCover) envProbeFail (Gui.Mode.time 5) none
    "a.mp4" "c.jpg" "o.tmp" (fsOf "a.mp4" fileWithCover) (by decide)
